import Mathlib

/-!
Verification of the FLTK graphics-driver layer specification against the
repository sources.

Embedded here:
* `Fl_Xlib_Graphics_Driver.clip_xy` — 16-bit coordinate clamping, taken
  verbatim from `src/drivers/Xlib/Fl_Xlib_Graphics_Driver.H`.
* the Xlib translation stack (`translate_all` / `untranslate_all`) — only the
  data members and the capacity macro are in the sources, the method bodies
  are modelled from the design specification (§4.1).
* the Cairo clip-node stack (`push_clip` / `push_no_clip` / `pop_clip` /
  `clip_box`) — the `Clip` node layout is in
  `src/drivers/Cairo/Fl_Cairo_Graphics_Driver.H`; the method bodies are
  modelled from the specification (§4.2).
* the PostScript paginated-job state machine (`begin_job` / `begin_page`) —
  modelled from `FL/Fl_PostScript.H` documentation and the specification
  (§4.6, §6, §8).
* the per-character width memoization of the Cairo font descriptor —
  modelled from the specification (§4.4).
* `Fl_Table_Row` row-selection logic, embedded from `src/Fl_Table_Row.cxx`.
-/

namespace FLTK

/-! ### Coordinate clamping (Fl_Xlib_Graphics_Driver) -/

/-- `clip_max()` of `Fl_Xlib_Graphics_Driver`: returns the member `clip_max_`,
the plus-or-minus coordinate limit of the 16-bit coordinate space.  The member value is
a parameter here. -/
def clip_max (clip_max_ : Int) : Int := clip_max_

/-- `clip_min()` of `Fl_Xlib_Graphics_Driver`: `return -clip_max_;`. -/
def clip_min (clip_max_ : Int) : Int := -clip_max_

/-- `Fl_Xlib_Graphics_Driver::clip_xy` from
`src/drivers/Xlib/Fl_Xlib_Graphics_Driver.H`:
`return (x < clip_min() ? clip_min() : (x > clip_max() ? clip_max() : x ));` -/
def clip_xy (clip_max_ : Int) (x : Int) : Int :=
  if x < clip_min clip_max_ then clip_min clip_max_
  else if x > clip_max clip_max_ then clip_max clip_max_
  else x

/-! ### Xlib translation stack -/

/-- `FL_XLIB_GRAPHICS_TRANSLATION_STACK_SIZE` from
`src/drivers/Xlib/Fl_Xlib_Graphics_Driver.H`. -/
def TRANSLATION_STACK_SIZE : Nat := 20

/-- The translation state of `Fl_Xlib_Graphics_Driver`: the current offset
`offset_x_` / `offset_y_` between user and graphical coordinates, and the
stack of offsets saved by `translate_all` (`stack_x_` / `stack_y_` up to
`depth_`, most recent first). -/
structure TransState where
  offset_x : Int
  offset_y : Int
  saved : List (Int × Int)
  deriving DecidableEq, Repr

/-- The translation state of a freshly constructed driver: zero offset,
empty stack. -/
def TransState.init : TransState := ⟨0, 0, []⟩

/-- Stack depth `depth_`. -/
def TransState.depth (s : TransState) : Nat := s.saved.length

/-- Modelled from the spec: the body of
`Fl_Xlib_Graphics_Driver::translate_all(dx, dy)` is not among the sources
(only its declaration is).  Per §4.1, `push(dx,dy)` adds a new frame relative
to the current device origin and, when the capacity of
`FL_XLIB_GRAPHICS_TRANSLATION_STACK_SIZE` frames is exceeded, rejects the
push silently, leaving the old top frame active and the offset unchanged. -/
def translate_all (s : TransState) (dx dy : Int) : TransState :=
  if s.depth < TRANSLATION_STACK_SIZE then
    { offset_x := s.offset_x + dx
      offset_y := s.offset_y + dy
      saved := (s.offset_x, s.offset_y) :: s.saved }
  else s

/-- Modelled from the spec: the body of
`Fl_Xlib_Graphics_Driver::untranslate_all()` is not among the sources.  Per
§4.1, `pop()` removes the top frame, restoring the saved offset, and is a
no-op when the stack is already at the base frame. -/
def untranslate_all (s : TransState) : TransState :=
  match s.saved with
  | [] => s
  | (ox, oy) :: rest => { offset_x := ox, offset_y := oy, saved := rest }

/-- `current_offset()`: the cumulative translation visible to callers. -/
def current_offset (s : TransState) : Int × Int := (s.offset_x, s.offset_y)

/-- Run a sequence of `translate_all` calls, first element first. -/
def pushSeq (s : TransState) : List (Int × Int) → TransState
  | [] => s
  | (dx, dy) :: rest => pushSeq (translate_all s dx dy) rest

/-- Run `n` `untranslate_all` calls. -/
def popN (s : TransState) : Nat → TransState
  | 0 => s
  | n + 1 => untranslate_all (popN s n)

/-- One step of driver usage: either a `translate_all` with some offsets or
an `untranslate_all`. -/
inductive TransOp where
  | push (dx dy : Int)
  | pop
  deriving DecidableEq, Repr

/-- Run a sequence of push/pop operations, first element first. -/
def runTransOps (s : TransState) : List TransOp → TransState
  | [] => s
  | TransOp.push dx dy :: rest => runTransOps (translate_all s dx dy) rest
  | TransOp.pop :: rest => runTransOps (untranslate_all s) rest

/-! ### Cairo clip-node stack -/

/-- The rectangle part of `Fl_Cairo_Graphics_Driver::Clip`
(`src/drivers/Cairo/Fl_Cairo_Graphics_Driver.H`): fields `x, y, w, h`.  The
`prev` back-reference is represented by the list structure of `ClipStack`. -/
structure Rect where
  x : Int
  y : Int
  w : Int
  h : Int
  deriving DecidableEq, Repr

/-- Rectangle intersection: the common area of two rectangles, expressed as
position plus extent.  A result with `w ≤ 0` or `h ≤ 0` is an empty clip. -/
def intersectRect (a b : Rect) : Rect :=
  { x := max a.x b.x
    y := max a.y b.y
    w := min (a.x + a.w) (b.x + b.w) - max a.x b.x
    h := min (a.y + a.h) (b.y + b.h) - max a.y b.y }

/-- The linked stack of `Clip` nodes hanging off `clip_`, most recent first.
A `none` entry is the unbounded marker pushed by `push_no_clip()`; the empty
list is the initial `clip_ == NULL` state (no clipping). -/
def ClipStack : Type := List (Option Rect)

/-- The clip rectangle of the top node, or `none` when the surface is
unclipped (empty stack or `push_no_clip` marker on top). -/
def currentClip (s : ClipStack) : Option Rect :=
  match s with
  | [] => none
  | c :: _ => c

/-- Modelled from the spec: the body of
`Fl_Cairo_Graphics_Driver::push_clip(x, y, w, h)` is not among the sources
(only its declaration and the `Clip` node layout are).  Per §4.2 it
intersects the given rectangle with the current top clip (if any) and pushes
the intersection as the new top node. -/
def push_clip (r : Rect) (s : ClipStack) : ClipStack :=
  (match currentClip s with
   | none => some r
   | some c => some (intersectRect r c)) :: s

/-- Modelled from the spec: the body of
`Fl_Cairo_Graphics_Driver::push_no_clip()` is not among the sources.  Per
§4.2 it pushes an explicit unbounded marker without intersecting. -/
def push_no_clip (s : ClipStack) : ClipStack := none :: s

/-- Modelled from the spec: the body of
`Fl_Cairo_Graphics_Driver::pop_clip()` is not among the sources.  Per §4.2 it
restores the prior node; popping an empty stack is treated as a no-op. -/
def pop_clip (s : ClipStack) : ClipStack :=
  match s with
  | [] => []
  | _ :: rest => rest

/-- Modelled from the spec: the body of
`Fl_Cairo_Graphics_Driver::clip_box(x, y, w, h, X, Y, W, H)` is not among the
sources.  Per §4.2 it returns the intersection of the requested rectangle
with the current clip (the requested rectangle itself when unclipped). -/
def clip_box (r : Rect) (s : ClipStack) : Rect :=
  match currentClip s with
  | none => r
  | some c => intersectRect r c

/-- One clip-push operation: `push_clip` of a rectangle or `push_no_clip`. -/
inductive ClipPushOp where
  | clipRect (r : Rect)
  | noClip
  deriving DecidableEq, Repr

/-- Apply one clip-push operation. -/
def applyClipPush (op : ClipPushOp) (s : ClipStack) : ClipStack :=
  match op with
  | ClipPushOp.clipRect r => push_clip r s
  | ClipPushOp.noClip => push_no_clip s

/-- Apply a sequence of clip-push operations, first element first. -/
def clipPushSeq (s : ClipStack) : List ClipPushOp → ClipStack
  | [] => s
  | op :: rest => clipPushSeq (applyClipPush op s) rest

/-- Run `n` `pop_clip` calls. -/
def popClipN (s : ClipStack) : Nat → ClipStack
  | 0 => s
  | n + 1 => pop_clip (popClipN s n)

/-- Push a sequence of clip rectangles with `push_clip`, first first. -/
def pushRectSeq (s : ClipStack) : List Rect → ClipStack
  | [] => s
  | r :: rest => pushRectSeq (push_clip r s) rest

/-! ### PostScript paginated-job state machine -/

/-- The paginated-job states of a PostScript device per §4.6:
`NoJob` → `JobOpen` (after a successful `begin_job`) → `PageOpen`
(after `begin_page`). -/
inductive PSJobState where
  | NoJob
  | JobOpen
  | PageOpen
  deriving DecidableEq, Repr

/-- Modelled from the spec: the body of
`Fl_PostScript_File_Device::begin_job(pagecount, format, layout)` is not
among the sources (only its declaration and documentation in
`FL/Fl_PostScript.H` are).  Per that documentation it returns 0 if OK, 1 if
the user cancelled the file dialog, 2 if `fopen` failed on the user-selected
output file; on success the job becomes open.  The dialog and filesystem
outcomes are the two boolean inputs. -/
def begin_job (dialogCancelled openFailed : Bool) (s : PSJobState) :
    PSJobState × Nat :=
  if dialogCancelled then (s, 1)
  else if openFailed then (s, 2)
  else (PSJobState.JobOpen, 0)

/-- Modelled from the spec: the body of
`Fl_PostScript_File_Device::begin_page()` is not among the sources.  Per
§4.6/§8 calling it outside an open job is a caller error that fails with a
documented nonzero error code and leaves the state machine unchanged; from
`JobOpen` it succeeds (code 0) and opens a page. -/
def begin_page (s : PSJobState) : PSJobState × Nat :=
  match s with
  | PSJobState.NoJob => (PSJobState.NoJob, 1)
  | PSJobState.JobOpen => (PSJobState.PageOpen, 0)
  | PSJobState.PageOpen => (PSJobState.PageOpen, 1)

/-! ### Per-character width memoization (Cairo font descriptor) -/

/-- Modelled from the spec: the body of
`Fl_Cairo_Graphics_Driver::width(unsigned)` is not among the sources (only
the `int **width` per-character width table of `Fl_Cairo_Font_Descriptor`
is).  Per §4.4, `width_of(descriptor, codepoint)` consults the sparse
per-character width table, computing via the backend shaping call and
memoizing on miss.  `shape` is the backend shaping call, `tbl` the
descriptor's width table; the result carries the pixel width, the updated
table, and whether the backend was invoked. -/
def width_of (shape : Nat → Int) (tbl : Nat → Option Int) (c : Nat) :
    Int × (Nat → Option Int) × Bool :=
  match tbl c with
  | some w => (w, tbl, false)
  | none =>
      (shape c, fun c' => if c' = c then some (shape c) else tbl c', true)

/-! ### Fl_Table_Row row selection (src/Fl_Table_Row.cxx) -/

/-- `TableRowSelectMode` of `Fl_Table_Row`. -/
inductive TableRowSelectMode where
  | SELECT_NONE
  | SELECT_SINGLE
  | SELECT_MULTI
  deriving DecidableEq, Repr

/-- The selection state of an `Fl_Table_Row`: `_selectmode` and the
`_rowselect` vector of per-row `char` cells (one value in 0..255 per row;
nonzero means selected).  `Fl_Table_Row::rows(val)` keeps the vector's size
equal to the table's row count, so `rows()` is the vector length here. -/
structure TableRowState where
  selectmode : TableRowSelectMode
  rowselect : List Nat
  deriving DecidableEq, Repr

/-- `rows()`: the table's row count. -/
def TableRowState.rows (s : TableRowState) : Int := s.rowselect.length

/-- `Fl_Table_Row::row_selected(row)` from `src/Fl_Table_Row.cxx`: 0 when
`row` is out of range, otherwise the `_rowselect[row]` cell. -/
def row_selected (s : TableRowState) (row : Int) : Nat :=
  if row < 0 ∨ row ≥ s.rows then 0
  else s.rowselect.getD row.toNat 0

/-- The `SELECT_SINGLE` loop body of `Fl_Table_Row::type`: walk the cells
keeping a count of selected ones and zero every selected cell after the
first (`if (++count > 1) sel = 0;`). -/
def clampToSingle : List Nat → Nat → List Nat
  | [], _ => []
  | v :: t, count =>
      if v ≠ 0 then
        (if count + 1 > 1 then 0 else v) :: clampToSingle t (count + 1)
      else v :: clampToSingle t count

/-- `Fl_Table_Row::type(val)` from `src/Fl_Table_Row.cxx`: sets
`_selectmode`, then `SELECT_NONE` clears every cell, `SELECT_SINGLE` keeps
only the first selected cell, `SELECT_MULTI` leaves the cells alone. -/
def type (s : TableRowState) (val : TableRowSelectMode) : TableRowState :=
  match val with
  | TableRowSelectMode.SELECT_NONE =>
      { selectmode := val, rowselect := s.rowselect.map fun _ => 0 }
  | TableRowSelectMode.SELECT_SINGLE =>
      { selectmode := val, rowselect := clampToSingle s.rowselect 0 }
  | TableRowSelectMode.SELECT_MULTI =>
      { selectmode := val, rowselect := s.rowselect }

/-- The new cell value written at the target row: `_rowselect[row] ^= 1` for
`flag == 2`, `_rowselect[row] = flag` otherwise (the vector stores `char`
cells, hence the reduction modulo 256). -/
def newCell (old flag : Nat) : Nat :=
  if flag = 2 then old ^^^ 1 else flag % 256

/-- The `SELECT_SINGLE` loop of `Fl_Table_Row::select_row`: at the target
index write the new cell value, and zero every other cell
(`else if (_rowselect[t]) _rowselect[t] = 0;`). -/
def singleRowUpdate (flag : Nat) : List Nat → Nat → List Nat
  | [], _ => []
  | v :: t, 0 => newCell v flag :: (t.map fun _ => 0)
  | _ :: t, r + 1 => 0 :: singleRowUpdate flag t r

/-- `Fl_Table_Row::select_row(row, flag)` from `src/Fl_Table_Row.cxx`:
returns -1 when `row` is out of range or the mode is `SELECT_NONE`;
otherwise updates the cells per the mode and returns 1 when the target
cell's value changed, 0 when it did not. -/
def select_row (s : TableRowState) (row : Int) (flag : Nat) :
    TableRowState × Int :=
  if row < 0 ∨ row ≥ s.rows then (s, -1)
  else
    match s.selectmode with
    | TableRowSelectMode.SELECT_NONE => (s, -1)
    | TableRowSelectMode.SELECT_SINGLE =>
        let old := s.rowselect.getD row.toNat 0
        ({ selectmode := s.selectmode
           rowselect := singleRowUpdate flag s.rowselect row.toNat },
         if newCell old flag ≠ old then 1 else 0)
    | TableRowSelectMode.SELECT_MULTI =>
        let old := s.rowselect.getD row.toNat 0
        ({ selectmode := s.selectmode
           rowselect := s.rowselect.set row.toNat (newCell old flag) },
         if newCell old flag ≠ old then 1 else 0)

/-- Number of selected (nonzero) cells. -/
def countSelected (l : List Nat) : Nat := l.countP fun v => v != 0

end FLTK

/-! ### Theorems -/

/-- C1: clamping with the backend-safe range of plus/minus 32767
(`Fl_Xlib_Graphics_Driver::clip_xy`) returns 32767 when x > 32767, returns
-32767 when x < -32767, and returns x unchanged when -32767 ≤ x ≤ 32767;
in particular 40000 clamps to 32767 and -40000 clamps to -32767. -/
theorem clip_xy_clamps (x : Int) :
    (x > 32767 → FLTK.clip_xy 32767 x = 32767) ∧
    (x < -32767 → FLTK.clip_xy 32767 x = -32767) ∧
    (-32767 ≤ x → x ≤ 32767 → FLTK.clip_xy 32767 x = x) ∧
    FLTK.clip_xy 32767 40000 = 32767 ∧
    FLTK.clip_xy 32767 (-40000) = -32767 := by
  refine ⟨?_, ?_, ?_, by decide, by decide⟩
  · intro h
    simp only [FLTK.clip_xy, FLTK.clip_min, FLTK.clip_max]
    rw [if_neg (by omega), if_pos h]
  · intro h
    simp only [FLTK.clip_xy, FLTK.clip_min, FLTK.clip_max]
    rw [if_pos h]
  · intro h1 h2
    simp only [FLTK.clip_xy, FLTK.clip_min, FLTK.clip_max]
    rw [if_neg (by omega), if_neg (by omega)]

/-- Witness for C1 at concrete inputs: 40000 is above range and clamps to
32767, and 100 is inside range and is unchanged. -/
theorem clip_xy_clamps_witness :
    (40000 : Int) > 32767 ∧ FLTK.clip_xy 32767 40000 = 32767 ∧
    (-32767 : Int) ≤ 100 ∧ (100 : Int) ≤ 32767 ∧ FLTK.clip_xy 32767 100 = 100 :=
  ⟨by decide, (clip_xy_clamps 40000).1 (by decide),
   by decide, by decide,
   (clip_xy_clamps 100).2.2.1 (by decide) (by decide)⟩

/-- Helper: a successful push (depth below capacity) is exactly undone by one
pop. -/
theorem FLTK.untranslate_translate (s : FLTK.TransState)
    (h : s.depth < FLTK.TRANSLATION_STACK_SIZE) (dx dy : Int) :
    FLTK.untranslate_all (FLTK.translate_all s dx dy) = s := by
  simp only [FLTK.translate_all, if_pos h, FLTK.untranslate_all]

/-- Helper: pushing a whole sequence within capacity accumulates the
componentwise sum into the offset, and the matching number of pops restores
the starting state exactly. -/
theorem FLTK.pushSeq_spec (L : List (Int × Int)) (s : FLTK.TransState)
    (h : s.depth + L.length ≤ FLTK.TRANSLATION_STACK_SIZE) :
    FLTK.current_offset (FLTK.pushSeq s L) =
      (s.offset_x + (L.map Prod.fst).sum, s.offset_y + (L.map Prod.snd).sum) ∧
    FLTK.popN (FLTK.pushSeq s L) L.length = s := by
  induction L generalizing s with
  | nil => exact ⟨by simp [FLTK.pushSeq, FLTK.current_offset], rfl⟩
  | cons d rest ih =>
    obtain ⟨dx, dy⟩ := d
    have hlt : s.depth < FLTK.TRANSLATION_STACK_SIZE := by
      simp only [List.length_cons] at h; omega
    have hdepth : (FLTK.translate_all s dx dy).depth = s.depth + 1 := by
      simp only [FLTK.translate_all]
      rw [if_pos hlt]
      simp [FLTK.TransState.depth]
    have h' : (FLTK.translate_all s dx dy).depth + rest.length ≤
        FLTK.TRANSLATION_STACK_SIZE := by
      rw [hdepth]; simp only [List.length_cons] at h; omega
    obtain ⟨ihoff, ihpop⟩ := ih (FLTK.translate_all s dx dy) h'
    constructor
    · show FLTK.current_offset (FLTK.pushSeq (FLTK.translate_all s dx dy) rest) = _
      rw [ihoff]
      simp only [FLTK.translate_all, if_pos hlt, List.map_cons, List.sum_cons]
      simp [add_assoc]
    · show FLTK.popN (FLTK.pushSeq (FLTK.translate_all s dx dy) rest)
        (rest.length + 1) = s
      simp only [FLTK.popN, ihpop]
      exact FLTK.untranslate_translate s hlt dx dy

/-- C2 (counterexample to the claim as stated): the claim quantifies over
*every* sequence of pushes, but with the capacity-20 stack a 21st push is
rejected, so the offset after 21 pushes of (1,0) is 20, not the componentwise
sum 21. -/
theorem transform_offset_sum_cex :
    FLTK.current_offset
        (FLTK.pushSeq FLTK.TransState.init (List.replicate 21 ((1 : Int), (0 : Int)))) ≠
      (((List.replicate 21 ((1 : Int), (0 : Int))).map Prod.fst).sum,
       ((List.replicate 21 ((1 : Int), (0 : Int))).map Prod.snd).sum) := by
  decide

/-- C2 (amended): for every sequence of at most 20 pushes (the stack
capacity) starting from the initial state, `current_offset()` equals the
componentwise sum of the pushed offsets; the matching pops restore the state
(hence the offset) that held before the pushes, and each single pop undoes
the immediately preceding successful push; in particular push(5,5),
push(-2,3) gives offset (3,8), one pop gives (5,5), a second pop gives
(0,0). -/
theorem transform_offset_composition (L : List (Int × Int))
    (h : L.length ≤ FLTK.TRANSLATION_STACK_SIZE) :
    FLTK.current_offset (FLTK.pushSeq FLTK.TransState.init L) =
      ((L.map Prod.fst).sum, (L.map Prod.snd).sum) ∧
    FLTK.popN (FLTK.pushSeq FLTK.TransState.init L) L.length = FLTK.TransState.init ∧
    (∀ s : FLTK.TransState, s.depth < FLTK.TRANSLATION_STACK_SIZE →
      ∀ dx dy : Int, FLTK.untranslate_all (FLTK.translate_all s dx dy) = s) ∧
    FLTK.current_offset
      (FLTK.pushSeq FLTK.TransState.init [(5, 5), (-2, 3)]) = (3, 8) ∧
    FLTK.current_offset
      (FLTK.popN (FLTK.pushSeq FLTK.TransState.init [(5, 5), (-2, 3)]) 1) = (5, 5) ∧
    FLTK.current_offset
      (FLTK.popN (FLTK.pushSeq FLTK.TransState.init [(5, 5), (-2, 3)]) 2) = (0, 0) := by
  have hinit : FLTK.TransState.init.depth + L.length ≤ FLTK.TRANSLATION_STACK_SIZE := by
    simpa [FLTK.TransState.init, FLTK.TransState.depth] using h
  obtain ⟨hoff, hpop⟩ := FLTK.pushSeq_spec L FLTK.TransState.init hinit
  refine ⟨by simpa [FLTK.TransState.init] using hoff, hpop,
    FLTK.untranslate_translate, by decide, by decide, by decide⟩

/-- Witness for C2 at the concrete sequence push(5,5), push(-2,3). -/
theorem transform_offset_composition_witness :
    ([((5 : Int), (5 : Int)), (-2, 3)].length ≤ FLTK.TRANSLATION_STACK_SIZE) ∧
    FLTK.current_offset
      (FLTK.pushSeq FLTK.TransState.init [((5 : Int), (5 : Int)), (-2, 3)]) =
      (([((5 : Int), (5 : Int)), (-2, 3)].map Prod.fst).sum,
       ([((5 : Int), (5 : Int)), (-2, 3)].map Prod.snd).sum) :=
  ⟨by decide, (transform_offset_composition [(5, 5), (-2, 3)] (by decide)).1⟩

/-- Helper: neither push nor pop can raise the depth above capacity. -/
theorem FLTK.runTransOps_depth (ops : List FLTK.TransOp) (s : FLTK.TransState)
    (h : s.depth ≤ FLTK.TRANSLATION_STACK_SIZE) :
    (FLTK.runTransOps s ops).depth ≤ FLTK.TRANSLATION_STACK_SIZE := by
  induction ops generalizing s with
  | nil => exact h
  | cons op rest ih =>
    cases op with
    | push dx dy =>
      refine ih (FLTK.translate_all s dx dy) ?_
      by_cases hlt : s.depth < FLTK.TRANSLATION_STACK_SIZE
      · simp only [FLTK.translate_all]
        rw [if_pos hlt]
        simp only [FLTK.TransState.depth, List.length_cons]
        simp only [FLTK.TransState.depth] at hlt
        omega
      · simp only [FLTK.translate_all]
        rw [if_neg hlt]
        exact h
    | pop =>
      refine ih (FLTK.untranslate_all s) ?_
      simp only [FLTK.untranslate_all]
      cases hs : s.saved with
      | nil => exact h
      | cons p rest' =>
        obtain ⟨ox, oy⟩ := p
        simp only [FLTK.TransState.depth] at h ⊢
        rw [hs] at h
        simp only [List.length_cons] at h
        omega

/-- C3: for every sequence of push/pop operations starting from the initial
state, the stack depth never exceeds the fixed capacity of 20 frames, and a
push issued when the stack is already at full capacity is a silent no-op
leaving the whole translation state (top frame and cumulative offset)
unchanged. -/
theorem transform_stack_capacity (ops : List FLTK.TransOp) :
    (FLTK.runTransOps FLTK.TransState.init ops).depth ≤ FLTK.TRANSLATION_STACK_SIZE ∧
    (∀ s : FLTK.TransState, s.depth = FLTK.TRANSLATION_STACK_SIZE →
      ∀ dx dy : Int, FLTK.translate_all s dx dy = s) := by
  constructor
  · exact FLTK.runTransOps_depth ops FLTK.TransState.init (by decide)
  · intro s hs dx dy
    simp only [FLTK.translate_all]
    rw [if_neg (by omega)]

/-- Witness for C3: a concrete op sequence keeps depth within capacity, and a
push onto a concrete full stack changes nothing. -/
theorem transform_stack_capacity_witness :
    (FLTK.runTransOps FLTK.TransState.init
      [FLTK.TransOp.push 1 2, FLTK.TransOp.pop]).depth ≤
        FLTK.TRANSLATION_STACK_SIZE ∧
    FLTK.translate_all ⟨7, 8, List.replicate 20 (0, 0)⟩ 3 4 =
      ⟨7, 8, List.replicate 20 (0, 0)⟩ :=
  ⟨(transform_stack_capacity [FLTK.TransOp.push 1 2, FLTK.TransOp.pop]).1,
   (transform_stack_capacity []).2 ⟨7, 8, List.replicate 20 (0, 0)⟩ (by decide) 3 4⟩

/-- Helper: a single clip push (rectangle or no-clip marker) is exactly
undone by a single pop. -/
theorem FLTK.pop_applyClipPush (op : FLTK.ClipPushOp) (s : FLTK.ClipStack) :
    FLTK.pop_clip (FLTK.applyClipPush op s) = s := by
  cases op <;> rfl

/-- Helper: popping as many times as was pushed restores the starting clip
stack exactly. -/
theorem FLTK.popClipN_clipPushSeq (ops : List FLTK.ClipPushOp) (s : FLTK.ClipStack) :
    FLTK.popClipN (FLTK.clipPushSeq s ops) ops.length = s := by
  induction ops generalizing s with
  | nil => rfl
  | cons op rest ih =>
    show FLTK.popClipN (FLTK.clipPushSeq (FLTK.applyClipPush op s) rest)
      (rest.length + 1) = s
    simp only [FLTK.popClipN, ih (FLTK.applyClipPush op s)]
    exact FLTK.pop_applyClipPush op s

/-- C4: for every sequence of `push_clip`/`push_no_clip` operations applied
to any clip state, performing the matching number of `pop_clip` calls
restores the starting clip state bit-for-bit, and each single `pop_clip`
restores exactly the immediately previous clip node, never a deeper one.
(The model's linked stack has no capacity bound, so this holds a fortiori
for sequences of depth at most the capacity.) -/
theorem clip_stack_lifo (ops : List FLTK.ClipPushOp) (s : FLTK.ClipStack) :
    FLTK.popClipN (FLTK.clipPushSeq s ops) ops.length = s ∧
    (∀ op : FLTK.ClipPushOp, FLTK.pop_clip (FLTK.applyClipPush op s) = s) :=
  ⟨FLTK.popClipN_clipPushSeq ops s, fun op => FLTK.pop_applyClipPush op s⟩

/-- Helper: pushing rectangles one after the other leaves, as the top clip,
the running intersection of all of them. -/
theorem FLTK.currentClip_pushRectSeq (rs : List FLTK.Rect) (s : FLTK.ClipStack)
    (acc : FLTK.Rect) (h : FLTK.currentClip s = some acc) :
    FLTK.currentClip (FLTK.pushRectSeq s rs) =
      some (rs.foldl (fun a r => FLTK.intersectRect r a) acc) := by
  induction rs generalizing s acc with
  | nil => exact h
  | cons r rest ih =>
    show FLTK.currentClip (FLTK.pushRectSeq (FLTK.push_clip r s) rest) = _
    refine ih (FLTK.push_clip r s) (FLTK.intersectRect r acc) ?_
    have hpush : FLTK.push_clip r s = some (FLTK.intersectRect r acc) :: s := by
      simp only [FLTK.push_clip, h]
    rw [hpush]
    rfl

/-- C5: `clip_box` returns the intersection of the requested rectangle with
the current effective clip — the intersection of all pushed clip
rectangles — and in particular, after `push_clip(0,0,100,100)` then
`push_clip(20,20,50,50)`, `clip_box(0,0,200,200)` returns the rectangle
(20,20,50,50). -/
theorem clip_box_intersection (q r0 : FLTK.Rect) (rs : List FLTK.Rect) :
    FLTK.clip_box q (FLTK.pushRectSeq [] (r0 :: rs)) =
      FLTK.intersectRect q
        (rs.foldl (fun a r => FLTK.intersectRect r a) r0) ∧
    FLTK.clip_box ⟨0, 0, 200, 200⟩
      (FLTK.pushRectSeq [] [⟨0, 0, 100, 100⟩, ⟨20, 20, 50, 50⟩]) =
      ⟨20, 20, 50, 50⟩ := by
  constructor
  · have h0 : FLTK.currentClip (FLTK.push_clip r0 []) = some r0 := rfl
    have := FLTK.currentClip_pushRectSeq rs (FLTK.push_clip r0 []) r0 h0
    show FLTK.clip_box q (FLTK.pushRectSeq (FLTK.push_clip r0 []) rs) = _
    simp only [FLTK.clip_box, this]
  · decide

/-- C6: `begin_job(pagecount, format, layout)` returns exactly one of the
three codes 0 (job opened), 1 (user cancelled the file dialog) and 2 (open
of the user-selected output file failed); each condition maps to its code
and no other outcome is possible. -/
theorem begin_job_codes (dialogCancelled openFailed : Bool) (s : FLTK.PSJobState) :
    ((FLTK.begin_job dialogCancelled openFailed s).2 = 0 ∨
     (FLTK.begin_job dialogCancelled openFailed s).2 = 1 ∨
     (FLTK.begin_job dialogCancelled openFailed s).2 = 2) ∧
    (dialogCancelled = true →
      FLTK.begin_job dialogCancelled openFailed s = (s, 1)) ∧
    (dialogCancelled = false → openFailed = true →
      FLTK.begin_job dialogCancelled openFailed s = (s, 2)) ∧
    (dialogCancelled = false → openFailed = false →
      FLTK.begin_job dialogCancelled openFailed s =
        (FLTK.PSJobState.JobOpen, 0)) := by
  cases dialogCancelled <;> cases openFailed <;> cases s <;> simp [FLTK.begin_job]

/-- Witness for C6: the successful path opens the job with code 0. -/
theorem begin_job_codes_witness :
    FLTK.begin_job false false FLTK.PSJobState.NoJob =
      (FLTK.PSJobState.JobOpen, 0) :=
  (begin_job_codes false false FLTK.PSJobState.NoJob).2.2.2 rfl rfl

/-- C7: `begin_page()` called in state `NoJob` (no successful `begin_job`
yet) fails with a nonzero error code and leaves the paginated-job state
machine unchanged, still `NoJob`. -/
theorem begin_page_before_job :
    (FLTK.begin_page FLTK.PSJobState.NoJob).2 ≠ 0 ∧
    (FLTK.begin_page FLTK.PSJobState.NoJob).1 = FLTK.PSJobState.NoJob := by
  decide

/-- C8: for a fixed width table and codepoint, two successive `width_of`
calls return the identical width; the second call does not invoke the
backend shaping call and leaves the table untouched; the width is computed
by the backend at most once per codepoint (only on a table miss) and
memoized. -/
theorem width_of_memoizes (shape : Nat → Int) (tbl : Nat → Option Int) (c : Nat) :
    ((FLTK.width_of shape ((FLTK.width_of shape tbl c).2.1) c).1 =
      (FLTK.width_of shape tbl c).1) ∧
    (FLTK.width_of shape ((FLTK.width_of shape tbl c).2.1) c).2.2 = false ∧
    (FLTK.width_of shape ((FLTK.width_of shape tbl c).2.1) c).2.1 =
      (FLTK.width_of shape tbl c).2.1 ∧
    (∀ w : Int, tbl c = some w →
      FLTK.width_of shape tbl c = (w, tbl, false)) ∧
    (tbl c = none →
      (FLTK.width_of shape tbl c).1 = shape c ∧
      (FLTK.width_of shape tbl c).2.2 = true ∧
      (FLTK.width_of shape tbl c).2.1 c = some (shape c)) := by
  cases htbl : tbl c with
  | some w =>
    refine ⟨?_, ?_, ?_, ?_, ?_⟩ <;>
      simp [FLTK.width_of, htbl]
  | none =>
    have hfst : (FLTK.width_of shape tbl c).2.1 c = some (shape c) := by
      simp [FLTK.width_of, htbl]
    refine ⟨?_, ?_, ?_, ?_, ?_⟩ <;>
      simp [FLTK.width_of, htbl]

/-- Witness for C8 at a concrete backend function, empty table and the
codepoint of 'A'. -/
theorem width_of_memoizes_witness :
    ((FLTK.width_of (fun _ => 7) ((FLTK.width_of (fun _ => 7)
        (fun _ => none) 65).2.1) 65).1 =
      (FLTK.width_of (fun _ => 7) (fun _ => none) 65).1) ∧
    ((fun _ => (none : Option Int)) 65 = none →
      (FLTK.width_of (fun _ => 7) (fun _ => none) 65).1 = (fun _ => (7 : Int)) 65 ∧
      (FLTK.width_of (fun _ => 7) (fun _ => none) 65).2.2 = true ∧
      (FLTK.width_of (fun _ => 7) (fun _ => none) 65).2.1 65 = some ((fun _ => (7 : Int)) 65)) :=
  ⟨(width_of_memoizes (fun _ => 7) (fun _ => none) 65).1,
   fun h => (width_of_memoizes (fun _ => 7) (fun _ => none) 65).2.2.2.2 h⟩

/-- Helper: a list of zeroed cells has no selected row and reads 0 at every
index. -/
theorem FLTK.countSelected_zeros (t : List Nat) :
    FLTK.countSelected (t.map fun _ => 0) = 0 ∧
    ∀ i : Nat, (t.map fun _ => (0 : Nat)).getD i 0 = 0 := by
  induction t with
  | nil =>
    refine ⟨rfl, fun i => ?_⟩
    simp [List.getD]
  | cons v rest ih =>
    refine ⟨?_, fun i => ?_⟩
    · simp only [List.map_cons, FLTK.countSelected, List.countP_cons]
      have h1 := ih.1
      simp only [FLTK.countSelected] at h1
      simp [h1]
    · cases i with
      | zero => rfl
      | succ j =>
        simp

/-- Helper: once a selected cell has been seen (`count ≥ 1`), the
`SELECT_SINGLE` clamp of `Fl_Table_Row::type` zeroes every further selected
cell. -/
theorem FLTK.clampToSingle_saturated (l : List Nat) (count : Nat)
    (h : 1 ≤ count) : FLTK.countSelected (FLTK.clampToSingle l count) = 0 := by
  induction l generalizing count with
  | nil => rfl
  | cons v rest ih =>
    by_cases hv : v ≠ 0
    · have hcount : count + 1 > 1 := by omega
      simp only [FLTK.clampToSingle, if_pos hv, if_pos hcount,
        FLTK.countSelected, List.countP_cons]
      simpa [FLTK.countSelected] using ih (count + 1) (by omega)
    · simp only [FLTK.clampToSingle, if_neg hv, FLTK.countSelected,
        List.countP_cons]
      have hv0 : v = 0 := by omega
      simpa [hv0, FLTK.countSelected] using ih count h

/-- Helper: the `SELECT_SINGLE` clamp of `Fl_Table_Row::type` leaves at most
one selected cell. -/
theorem FLTK.clampToSingle_atMostOne (l : List Nat) :
    FLTK.countSelected (FLTK.clampToSingle l 0) ≤ 1 := by
  induction l with
  | nil => decide
  | cons v rest ih =>
    by_cases hv : v ≠ 0
    · have : ¬((0 : Nat) + 1 > 1) := by omega
      simp only [FLTK.clampToSingle, if_pos hv, if_neg this,
        FLTK.countSelected, List.countP_cons]
      have := FLTK.clampToSingle_saturated rest 1 (by omega)
      simp only [FLTK.countSelected] at this
      simp [this, hv]
    · have hv0 : v = 0 := by omega
      simp only [FLTK.clampToSingle, if_neg hv, FLTK.countSelected,
        List.countP_cons, hv0]
      simpa [FLTK.countSelected] using ih

/-- Helper: the `SELECT_SINGLE` branch of `select_row` zeroes every cell
other than the target one and leaves at most one selected cell. -/
theorem FLTK.singleRowUpdate_spec (flag : Nat) (l : List Nat) (r : Nat) :
    (∀ t : Nat, t ≠ r → (FLTK.singleRowUpdate flag l r).getD t 0 = 0) ∧
    FLTK.countSelected (FLTK.singleRowUpdate flag l r) ≤ 1 := by
  induction l generalizing r with
  | nil =>
    refine ⟨fun t _ => ?_, by simp [FLTK.singleRowUpdate, FLTK.countSelected]⟩
    simp [FLTK.singleRowUpdate, List.getD]
  | cons v rest ih =>
    cases r with
    | zero =>
      refine ⟨fun t ht => ?_, ?_⟩
      · cases t with
        | zero => exact absurd rfl ht
        | succ j =>
          show (rest.map fun _ => (0 : Nat)).getD j 0 = 0
          exact (FLTK.countSelected_zeros rest).2 j
      · show FLTK.countSelected (FLTK.newCell v flag :: (rest.map fun _ => 0)) ≤ 1
        simp only [FLTK.countSelected, List.countP_cons]
        have := (FLTK.countSelected_zeros rest).1
        simp only [FLTK.countSelected] at this
        rw [this]
        by_cases hnc : FLTK.newCell v flag = 0 <;> simp [hnc]
    | succ r' =>
      refine ⟨fun t ht => ?_, ?_⟩
      · cases t with
        | zero => rfl
        | succ j =>
          show (FLTK.singleRowUpdate flag rest r').getD j 0 = 0
          exact (ih r').1 j (by omega)
      · show FLTK.countSelected (0 :: FLTK.singleRowUpdate flag rest r') ≤ 1
        simp only [FLTK.countSelected, List.countP_cons]
        simpa [FLTK.countSelected] using (ih r').2

/-- C9: `Fl_Table_Row::select_row(row, flag)` returns -1 and leaves the
selection state of every row unchanged (the whole table state is returned
untouched) whenever `row < 0`, `row >= rows()`, or the selection mode is
`SELECT_NONE`. -/
theorem select_row_rejects (s : FLTK.TableRowState) (row : Int) (flag : Nat)
    (h : row < 0 ∨ row ≥ s.rows ∨
      s.selectmode = FLTK.TableRowSelectMode.SELECT_NONE) :
    FLTK.select_row s row flag = (s, -1) := by
  by_cases hr : row < 0 ∨ row ≥ s.rows
  · simp only [FLTK.select_row, if_pos hr]
  · have hmode : s.selectmode = FLTK.TableRowSelectMode.SELECT_NONE := by
      tauto
    simp only [FLTK.select_row, if_neg hr, hmode]

/-- Witness for C9: selecting row 5 of a 2-row table in `SELECT_MULTI` mode
returns -1 and the untouched state. -/
theorem select_row_rejects_witness :
    ((5 : Int) < 0 ∨ (5 : Int) ≥
        (FLTK.TableRowState.mk FLTK.TableRowSelectMode.SELECT_MULTI [1, 0]).rows ∨
      (FLTK.TableRowState.mk FLTK.TableRowSelectMode.SELECT_MULTI [1, 0]).selectmode =
        FLTK.TableRowSelectMode.SELECT_NONE) ∧
    FLTK.select_row ⟨FLTK.TableRowSelectMode.SELECT_MULTI, [1, 0]⟩ 5 1 =
      (⟨FLTK.TableRowSelectMode.SELECT_MULTI, [1, 0]⟩, -1) :=
  ⟨Or.inr (Or.inl (by decide)),
   select_row_rejects ⟨FLTK.TableRowSelectMode.SELECT_MULTI, [1, 0]⟩ 5 1
     (Or.inr (Or.inl (by decide)))⟩

/-- C10: in `SELECT_SINGLE` mode at most one row is selected after
`Fl_Table_Row::type` or `Fl_Table_Row::select_row`: `type(SELECT_SINGLE)`
clears all selected rows after the first, and `select_row(row, flag)` in
that mode deselects every row other than the given one. -/
theorem single_select_at_most_one (s : FLTK.TableRowState) (row : Int)
    (flag : Nat) :
    FLTK.countSelected
      ((FLTK.type s FLTK.TableRowSelectMode.SELECT_SINGLE).rowselect) ≤ 1 ∧
    (s.selectmode = FLTK.TableRowSelectMode.SELECT_SINGLE →
      ¬(row < 0 ∨ row ≥ s.rows) →
      (∀ t : Nat, t ≠ row.toNat →
        (FLTK.select_row s row flag).1.rowselect.getD t 0 = 0) ∧
      FLTK.countSelected ((FLTK.select_row s row flag).1.rowselect) ≤ 1) := by
  constructor
  · exact FLTK.clampToSingle_atMostOne s.rowselect
  · intro hmode hr
    simp only [FLTK.select_row, if_neg hr, hmode]
    exact ⟨fun t ht =>
      (FLTK.singleRowUpdate_spec flag s.rowselect row.toNat).1 t ht,
      (FLTK.singleRowUpdate_spec flag s.rowselect row.toNat).2⟩

/-- Witness for C10: on a (hypothetical) fully selected 3-row table in
`SELECT_SINGLE` mode, selecting row 1 leaves at most one selected row. -/
theorem single_select_at_most_one_witness :
    (FLTK.TableRowState.mk FLTK.TableRowSelectMode.SELECT_SINGLE
        [1, 1, 1]).selectmode = FLTK.TableRowSelectMode.SELECT_SINGLE ∧
    ¬((1 : Int) < 0 ∨ (1 : Int) ≥
      (FLTK.TableRowState.mk FLTK.TableRowSelectMode.SELECT_SINGLE [1, 1, 1]).rows) ∧
    FLTK.countSelected
      ((FLTK.select_row ⟨FLTK.TableRowSelectMode.SELECT_SINGLE, [1, 1, 1]⟩
        1 1).1.rowselect) ≤ 1 :=
  ⟨rfl, by decide,
   ((single_select_at_most_one
      ⟨FLTK.TableRowSelectMode.SELECT_SINGLE, [1, 1, 1]⟩ 1 1).2 rfl
        (by decide)).2⟩
